import Mathlib

/-!
Shallow embedding of the request/rate-limit/task-polling core of the
wb_python_api client library, together with theorems settling the frozen
claims about it.

Conventions of the embedding:
* Python floats and monotonic-clock readings are modelled as rationals.
* Python ints are modelled as integers.
* The monotonic clock is passed in from outside: every operation reading the
  clock takes the reading as an explicit argument.
* Python exceptions are modelled with Option / Except: a result of none
  (resp. Except.error) means the corresponding Python call raised.
-/

/-- ASCII model of the Python str.lower character mapping used on header
keys (header keys are ASCII, where Python and ASCII lowering agree). -/
def pyLowerChar (c : Char) : Char :=
  if 65 ≤ c.toNat ∧ c.toNat ≤ 90 then Char.ofNat (c.toNat + 32) else c

/-- Model of k.lower() on a header key string. -/
def pyLower (s : String) : String :=
  ⟨s.data.map pyLowerChar⟩

/-- Strip leading and trailing whitespace, as Python int()/float() do on
string arguments. -/
def pyStripWs (cs : List Char) : List Char :=
  ((cs.dropWhile Char.isWhitespace).reverse.dropWhile Char.isWhitespace).reverse

/-- Numeric value of a digit list (only meaningful when all are digits). -/
def digitsNat (cs : List Char) : Nat :=
  cs.foldl (fun a c => a * 10 + (c.toNat - 48)) 0

/-- A nonempty all-digit list parses to its value, otherwise none. -/
def digitsVal (cs : List Char) : Option Nat :=
  if cs ≠ [] ∧ cs.all Char.isDigit then some (digitsNat cs) else none

/-- Model of Python int(s) on a string: optional sign followed by digits
(surrounding whitespace stripped); none models a ValueError. -/
def pyInt (s : String) : Option Int :=
  match pyStripWs s.data with
  | '-' :: cs => (digitsVal cs).map (fun n => -(n : Int))
  | '+' :: cs => (digitsVal cs).map (fun n => (n : Int))
  | cs => (digitsVal cs).map (fun n => (n : Int))

/-- Value of an unsigned decimal literal, integer part and optional
fraction part separated by a dot; none models a ValueError. -/
def decimalVal (cs : List Char) : Option ℚ :=
  match cs.splitOn '.' with
  | [ip] => (digitsVal ip).map (fun n => (n : ℚ))
  | [ip, fp] =>
    if (ip ≠ [] ∨ fp ≠ []) ∧ ip.all Char.isDigit ∧ fp.all Char.isDigit then
      some ((digitsNat ip : ℚ) + (digitsNat fp : ℚ) / (10 ^ fp.length))
    else none
  | _ => none

/-- Model of Python float(s) on a string (plain decimal literals, which is
the form rate-limit headers carry): optional sign then decimal literal,
surrounding whitespace stripped; none models a ValueError. -/
def pyFloat (s : String) : Option ℚ :=
  match pyStripWs s.data with
  | '-' :: cs => (decimalVal cs).map (fun q => -q)
  | '+' :: cs => (decimalVal cs).map (fun q => q)
  | cs => (decimalVal cs).map (fun q => q)

/-- Lookup in an association list built like a Python dict comprehension:
a later binding of the same key overrides an earlier one. -/
def dictGet (l : List (String × String)) (k : String) : Option String :=
  l.foldl (fun acc p => if p.1 = k then some p.2 else acc) none

/-! ## Rate limiter (src/wb_api/rate_limiter.py, class RateLimiter) -/

/-- Mutable state of RateLimiter: rpm and burst are Python ints, tokens a
Python float, last_update a monotonic-clock reading. -/
structure RateLimiter where
  rpm : Int
  burst : Int
  tokens : ℚ
  last_update : ℚ
deriving DecidableEq, Repr

/-- RateLimiter.__init__(requests_per_minute, burst) at clock reading now. -/
def RateLimiter.init (requests_per_minute burst : Int) (now : ℚ) : RateLimiter :=
  { rpm := requests_per_minute
    burst := burst
    tokens := (burst : ℚ)
    last_update := now }

/-- RateLimiter._refill at clock reading now. -/
def RateLimiter.refill (s : RateLimiter) (now : ℚ) : RateLimiter :=
  { s with
    tokens := min (s.burst : ℚ) (s.tokens + (now - s.last_update) * ((s.rpm : ℚ) / 60))
    last_update := now }

/-- RateLimiter.try_acquire at clock reading now: returns the boolean
result and the post state. -/
def RateLimiter.try_acquire (s : RateLimiter) (now : ℚ) : Bool × RateLimiter :=
  let s1 := s.refill now
  if 1 ≤ s1.tokens then (true, { s1 with tokens := s1.tokens - 1 })
  else (false, s1)

/-- n consecutive try_acquire calls at one fixed clock reading. -/
def RateLimiter.tryAcquireN (s : RateLimiter) (now : ℚ) : Nat → List Bool × RateLimiter
  | 0 => ([], s)
  | n + 1 =>
    let r1 := s.try_acquire now
    let r2 := r1.2.tryAcquireN now n
    (r1.1 :: r2.1, r2.2)

/-- The while loop of RateLimiter.acquire, driven by the clock readings
observed at each re-refill after a sleep; none models a call that is
still blocked when the given readings are exhausted. -/
def RateLimiter.acquireLoop (s : RateLimiter) : List ℚ → Option RateLimiter
  | [] =>
    if 1 ≤ s.tokens then some { s with tokens := s.tokens - 1 } else none
  | t :: ts =>
    if 1 ≤ s.tokens then some { s with tokens := s.tokens - 1 }
    else (s.refill t).acquireLoop ts

/-- RateLimiter.acquire: initial refill at reading now, then the blocking
loop with subsequent readings laterTimes. -/
def RateLimiter.acquire (s : RateLimiter) (now : ℚ) (laterTimes : List ℚ) :
    Option RateLimiter :=
  (s.refill now).acquireLoop laterTimes

/-- First block of RateLimiter.update_from_headers: if the lowered
headers carry x-ratelimit-remaining, set tokens to its int value; none
models the ValueError raised by int() on a malformed value. -/
def RateLimiter.applyRemaining (s : RateLimiter)
    (hl : List (String × String)) : Option RateLimiter :=
  match dictGet hl "x-ratelimit-remaining" with
  | some v => (pyInt v).map (fun (r : Int) => { s with tokens := (r : ℚ) })
  | none => some s

/-- Second block of RateLimiter.update_from_headers: if the lowered
headers carry x-ratelimit-limit, set burst to its int value. -/
def RateLimiter.applyLimit (s : RateLimiter)
    (hl : List (String × String)) : Option RateLimiter :=
  match dictGet hl "x-ratelimit-limit" with
  | some v => (pyInt v).map (fun l => { s with burst := l })
  | none => some s

/-- RateLimiter.update_from_headers: lowercase the header keys, then run
the remaining block and the limit block in order (a ValueError in the
first block aborts before the second). -/
def RateLimiter.update_from_headers (s : RateLimiter)
    (headers : List (String × String)) : Option RateLimiter :=
  (s.applyRemaining (headers.map (fun p => (pyLower p.1, p.2)))).bind
    (fun s1 => s1.applyLimit (headers.map (fun p => (pyLower p.1, p.2))))

/-- Snapshot returned by RateLimiter.get_state. -/
structure RateLimitState where
  remaining : Int
  reset_at : ℚ
  limit : Int
deriving DecidableEq, Repr

/-- Model of Python int() applied to a float: truncation toward zero. -/
def pyTrunc (q : ℚ) : Int :=
  if q < 0 then ⌈q⌉ else ⌊q⌋

/-- RateLimiter.get_state at clock reading now: refills, then returns the
snapshot together with the post state (60.0 / rpm is rational division,
meaningful for the nonzero rpm configurations the client constructs). -/
def RateLimiter.get_state (s : RateLimiter) (now : ℚ) :
    RateLimitState × RateLimiter :=
  let s1 := s.refill now
  ({ remaining := pyTrunc s1.tokens
     reset_at := s1.last_update + 60 / (s1.rpm : ℚ)
     limit := s1.burst }, s1)

/-! ## Response classification (src/wb_api/api/base.py, BaseAPI) -/

/-- Decoded JSON value, as produced by response.json(). -/
inductive Json where
  | null : Json
  | bool (b : Bool) : Json
  | num (q : ℚ) : Json
  | str (s : String) : Json
  | arr (xs : List Json) : Json
  | obj (fields : List (String × Json)) : Json

/-- Python truthiness of a decoded JSON value. -/
def pyTruthy : Json → Bool
  | .null => false
  | .bool b => b
  | .num q => q ≠ 0
  | .str s => s ≠ ""
  | .arr xs => !xs.isEmpty
  | .obj kvs => !kvs.isEmpty

/-- dict.get on a decoded JSON object (later duplicate keys override
earlier ones, as in a Python dict built in insertion order). -/
def jsonGet (kvs : List (String × Json)) (k : String) : Option Json :=
  kvs.foldl (fun acc p => if p.1 = k then some p.2 else acc) none

/-- Rendering of a JSON-decoded number under str(): integers without a
fractional part, other rationals via their reduced fraction. -/
def pyReprNum (q : ℚ) : String :=
  if q.den = 1 then toString q.num else toString q.num ++ "/" ++ toString q.den

mutual

/-- Model of Python str() on a decoded JSON value (dict/list repr). -/
def pyRepr : Json → String
  | .null => "None"
  | .bool true => "True"
  | .bool false => "False"
  | .num q => pyReprNum q
  | .str s => "\x27" ++ s ++ "\x27"
  | .arr xs => "[" ++ pyReprList xs ++ "]"
  | .obj kvs => "\x7b" ++ pyReprFields kvs ++ "\x7d"

def pyReprList : List Json → String
  | [] => ""
  | [x] => pyRepr x
  | x :: xs => pyRepr x ++ ", " ++ pyReprList xs

def pyReprFields : List (String × Json) → String
  | [] => ""
  | [p] => "\x27" ++ p.1 ++ "\x27: " ++ pyRepr p.2
  | p :: ps => "\x27" ++ p.1 ++ "\x27: " ++ pyRepr p.2 ++ ", " ++ pyReprFields ps

end

/-- The Python expression a or b.2 on optional dict lookups: take the
looked-up value when present and truthy, else the fallback. -/
def pyOrElse (o : Option Json) (fallback : Json) : Json :=
  match o with
  | some v => if pyTruthy v then v else fallback
  | none => fallback

/-- Message extraction of BaseAPI._handle_response: first truthy value
among the detail, message and error keys, else str(error_data); none
models the AttributeError of .get on a non-dict error body. -/
def extract_message (error_data : Json) : Option Json :=
  match error_data with
  | .obj kvs =>
    some (pyOrElse (jsonGet kvs "detail")
      (pyOrElse (jsonGet kvs "message")
        (pyOrElse (jsonGet kvs "error") (.str (pyRepr (Json.obj kvs))))))
  | _ => none

/-- The typed WB API errors raised by _handle_response, each carrying the
extracted message, the HTTP status code and the decoded error body. -/
inductive WBError where
  | validation (message : Json) (status_code : Int) (response : Json)
  | auth (message : Json) (status_code : Int) (response : Json)
  | forbidden (message : Json) (status_code : Int) (response : Json)
  | notFound (message : Json) (status_code : Int) (response : Json)
  | rateLimit (message : Json) (status_code : Int) (response : Json) (retry_after : ℚ)
  | server (message : Json) (status_code : Int) (response : Json)
  | api (message : Json) (status_code : Int) (response : Json)

/-- Outcome of _handle_response when it raises: either a typed WB error,
or an escaping builtin exception. -/
inductive PyExn where
  | wb (e : WBError)
  | valueError
  | attrError

/-- A completed HTTP response as _handle_response sees it: status code,
the outcome of response.json() (none when decoding fails), the raw text
and the headers. -/
structure Response where
  status : Int
  jsonBody : Option Json
  text : String
  headers : List (String × String)

/-- httpx response.is_success: status in the 2xx range. -/
def Response.is_success (r : Response) : Bool :=
  200 ≤ r.status ∧ r.status ≤ 299

/-- httpx case-insensitive header lookup. -/
def httpHdrGet (headers : List (String × String)) (k : String) : Option String :=
  dictGet (headers.map (fun p => (pyLower p.1, p.2))) (pyLower k)

/-- float(response.headers.get("x-ratelimit-retry", 1)): fallback 1 when
the header is absent; none models the ValueError of float() on a
malformed value. -/
def retryAfterOf (headers : List (String × String)) : Option ℚ :=
  match httpHdrGet headers "x-ratelimit-retry" with
  | none => some 1
  | some v => pyFloat v

/-- BaseAPI._handle_response: none when the response is successful, else
the raised exception. -/
def handle_response (r : Response) : Option PyExn :=
  if r.is_success then none
  else
    let error_data : Json :=
      match r.jsonBody with
      | some j => j
      | none => .obj [("detail", .str r.text)]
    match extract_message error_data with
    | none => some .attrError
    | some message =>
      if r.status = 400 then some (.wb (.validation message 400 error_data))
      else if r.status = 401 then some (.wb (.auth message 401 error_data))
      else if r.status = 403 then some (.wb (.forbidden message 403 error_data))
      else if r.status = 404 then some (.wb (.notFound message 404 error_data))
      else if r.status = 429 then
        match retryAfterOf r.headers with
        | none => some .valueError
        | some ra => some (.wb (.rateLimit message 429 error_data ra))
      else if 500 ≤ r.status then some (.wb (.server message r.status error_data))
      else some (.wb (.api message r.status error_data))

/-- Body data returned by BaseAPI._request for a successful response:
None for 204 or an empty undecodable body, the decoded JSON, or the raw
text. -/
inductive ReqData where
  | empty : ReqData
  | json (j : Json) : ReqData
  | text (s : String) : ReqData

/-- The response-processing tail of BaseAPI._request: raise what
_handle_response raises, return None for 204, else the decoded JSON,
falling back to the nonempty raw text and finally to None. -/
def request_result (r : Response) : Except PyExn ReqData :=
  match handle_response r with
  | some e => .error e
  | none =>
    if r.status = 204 then .ok .empty
    else
      match r.jsonBody with
      | some j => .ok (.json j)
      | none => if r.text ≠ "" then .ok (.text r.text) else .ok .empty

/-! ## Task polling (src/wb_api/utils/tasks.py and src/wb_api/models/base.py) -/

/-- TaskStatus enumeration of models/base.py. -/
inductive TaskStatus where
  | pending
  | in_progress
  | processing
  | completed
  | done
  | success
  | error
  | failed
  | cancelled
deriving DecidableEq, Repr

/-- The .value of a TaskStatus member. -/
def TaskStatus.value : TaskStatus → String
  | .pending => "pending"
  | .in_progress => "in_progress"
  | .processing => "processing"
  | .completed => "completed"
  | .done => "done"
  | .success => "success"
  | .error => "error"
  | .failed => "failed"
  | .cancelled => "cancelled"

/-- BaseTaskDetails: one point-in-time snapshot of a remote task. -/
structure TaskDetails where
  task_id : String
  status : TaskStatus
  total_items : Int
  processed_items : Int
  errors_count : Int
  errors : List Json

/-- BaseTaskDetails.is_completed. -/
def TaskDetails.is_completed (t : TaskDetails) : Bool :=
  t.status = .completed ∨ t.status = .done ∨ t.status = .success ∨
    t.status = .error ∨ t.status = .failed ∨ t.status = .cancelled

/-- BaseTaskDetails.is_successful. -/
def TaskDetails.is_successful (t : TaskDetails) : Bool :=
  t.status = .completed ∨ t.status = .done ∨ t.status = .success

/-- BaseTaskDetails.has_errors. -/
def TaskDetails.has_errors (t : TaskDetails) : Bool :=
  0 < t.errors_count ∨ !t.errors.isEmpty

/-- TaskTimeoutError(task_id, elapsed): the second constructor argument
is named timeout in the source but wait passes the elapsed time. -/
structure TaskTimeoutErr where
  task_id : String
  timeout : ℚ
deriving DecidableEq, Repr

/-- TaskFailedError(task_id, status, errors): errors already normalised
by errors or [] in the constructor. -/
structure TaskFailedErr where
  task_id : String
  status : String
  errors : List Json

/-- Exit of TaskPoller.wait: the returned snapshot or a raised error. -/
inductive WaitResult where
  | ok (t : TaskDetails)
  | failedErr (e : TaskFailedErr)
  | timedOut (e : TaskTimeoutErr)

/-- Observable trace of one TaskPoller.wait run: its exit, the snapshots
returned by check_fn in order, the snapshots passed to on_progress, and
the durations of the performed time.sleep calls. -/
structure WaitTrace where
  result : WaitResult
  checks : List TaskDetails
  progress : List TaskDetails
  sleeps : List ℚ

/-- Configuration of a TaskPoller. -/
structure PollerCfg where
  task_id : String
  timeout : ℚ
  interval : ℚ
  backoff_factor : ℚ
  max_interval : ℚ
deriving DecidableEq, Repr

/-- The while loop of TaskPoller.wait. check gives the snapshot returned
by the k-th check_fn call, tick k the time.monotonic() reading at the
top of the k-th iteration, start the reading taken before the loop;
hasP records whether an on_progress callback was supplied. The loop
runs for at most fuel iterations (none models a run that has not exited
within fuel iterations). -/
def waitLoop (cfg : PollerCfg) (check : Nat → TaskDetails) (hasP : Bool)
    (start : ℚ) (tick : Nat → ℚ) : Nat → Nat → ℚ → Option WaitTrace
  | 0, _, _ => none
  | fuel + 1, k, current_interval =>
    let elapsed := tick k - start
    if cfg.timeout ≤ elapsed then
      some { result := .timedOut { task_id := cfg.task_id, timeout := elapsed }
             checks := [], progress := [], sleeps := [] }
    else
      let task := check k
      let prog := if hasP then [task] else []
      if task.is_completed then
        if task.is_successful then
          some { result := .ok task, checks := [task], progress := prog, sleeps := [] }
        else
          some { result := .failedErr
                   { task_id := cfg.task_id
                     status := task.status.value
                     errors := if task.has_errors then task.errors else [] }
                 checks := [task], progress := prog, sleeps := [] }
      else
        let sleep_time := min (min current_interval cfg.max_interval) (cfg.timeout - elapsed)
        let slept := if 0 < sleep_time then [sleep_time] else []
        (waitLoop cfg check hasP start tick fuel (k + 1)
            (current_interval * cfg.backoff_factor)).map
          (fun tr =>
            { result := tr.result
              checks := task :: tr.checks
              progress := prog ++ tr.progress
              sleeps := slept ++ tr.sleeps })

/-- TaskPoller.wait: the loop started at iteration 0 with the configured
initial interval. -/
def TaskPoller.wait (cfg : PollerCfg) (check : Nat → TaskDetails) (hasP : Bool)
    (start : ℚ) (tick : Nat → ℚ) (fuel : Nat) : Option WaitTrace :=
  waitLoop cfg check hasP start tick fuel 0 cfg.interval

/-! ## Derived predicates and fixtures used by the verification -/

/-- The token-bucket invariant of the specification. -/
def RateLimiter.inv (s : RateLimiter) : Prop :=
  0 ≤ s.tokens ∧ s.tokens ≤ (s.burst : ℚ)

instance (s : RateLimiter) : Decidable s.inv := by
  unfold RateLimiter.inv; infer_instance

/-- Message selection as the specification words it: the value of the
first populated (truthy) key among detail, message, error, else a string
rendering of the whole body. Stated from the claim, to be compared with
extract_message, which is stated from the code. -/
def claimMessage (kvs : List (String × Json)) : Json :=
  match ["detail", "message", "error"].findSome?
      (fun k => (jsonGet kvs k).filter (fun v => pyTruthy v)) with
  | some v => v
  | none => .str (pyRepr (.obj kvs))

/-- Discriminator: did the wait run exit by timeout. -/
def WaitResult.isTimedOut : WaitResult → Bool
  | .timedOut _ => true
  | _ => false

/-- Fixture: a non-terminal (processing) snapshot. -/
def snapProcessing : TaskDetails :=
  { task_id := "t1", status := .processing, total_items := 100,
    processed_items := 50, errors_count := 0, errors := [] }

/-- Fixture: a terminal successful snapshot. -/
def snapDone : TaskDetails :=
  { task_id := "t1", status := .completed, total_items := 100,
    processed_items := 100, errors_count := 0, errors := [] }

/-- Fixture: a terminal failed snapshot with one attached error record. -/
def snapFailed : TaskDetails :=
  { task_id := "t1", status := .error, total_items := 100,
    processed_items := 50, errors_count := 1,
    errors := [.obj [("message", .str "boom")]] }

/-- Fixture: a poller configuration with the source defaults except a
small timeout. -/
def cfgFix : PollerCfg :=
  { task_id := "t1", timeout := 100, interval := 2,
    backoff_factor := 3 / 2, max_interval := 30 }

/-- Fixture: check function that is non-terminal on the first two calls
and successful afterwards. -/
def checkFix (i : Nat) : TaskDetails :=
  if i < 2 then snapProcessing else snapDone

/-- Fixture: check function that is non-terminal on the first two calls
and fails afterwards. -/
def checkFailFix (i : Nat) : TaskDetails :=
  if i < 2 then snapProcessing else snapFailed

/-! ## Rate limiter lemmas -/

/-- With no elapsed time and tokens within capacity, a refill is a no-op. -/
theorem RateLimiter.refill_eq_self (s : RateLimiter) (now : ℚ)
    (hlu : s.last_update = now) (htb : s.tokens ≤ (s.burst : ℚ)) :
    s.refill now = s := by
  cases s with
  | mk rpm burst tokens last_update =>
    simp only [RateLimiter.refill] at *
    subst hlu
    simp [min_eq_right htb]

/-- Behaviour of n consecutive try_acquire calls with no elapsed time
while at least n tokens are available: all succeed. -/
theorem RateLimiter.tryAcquireN_all_true (n : Nat) :
    ∀ s : RateLimiter, ∀ now : ℚ, s.last_update = now →
      s.tokens ≤ (s.burst : ℚ) → (n : ℚ) ≤ s.tokens →
      s.tryAcquireN now n =
        (List.replicate n true, { s with tokens := s.tokens - n }) := by
  induction n with
  | zero =>
    intro s now _ _ _
    cases s with
    | mk rpm burst tokens last_update => simp [RateLimiter.tryAcquireN]
  | succ n ih =>
    intro s now hlu htb hn
    have hn' : (n : ℚ) + 1 ≤ s.tokens := by push_cast at hn; linarith
    have h1 : (1 : ℚ) ≤ s.tokens := by
      have : (0 : ℚ) ≤ (n : ℚ) := Nat.cast_nonneg n
      linarith
    have hta : s.try_acquire now = (true, { s with tokens := s.tokens - 1 }) := by
      simp [RateLimiter.try_acquire, RateLimiter.refill_eq_self s now hlu htb, h1]
    have hrec := ih { s with tokens := s.tokens - 1 } now (by simp [hlu])
      (by simp only; linarith) (by simp only; linarith)
    simp only [RateLimiter.tryAcquireN, hta, hrec]
    simp only [List.replicate_succ, Prod.mk.injEq, RateLimiter.mk.injEq, true_and,
      and_true]
    push_cast
    ring

/-- Running m+1 try_acquire calls with exactly m tokens and no elapsed
time: m successes, then one failure that leaves tokens at 0. -/
theorem RateLimiter.tryAcquireN_exhaust (m : Nat) :
    ∀ s : RateLimiter, ∀ now : ℚ, s.last_update = now → s.tokens = (m : ℚ) →
      (m : ℚ) ≤ (s.burst : ℚ) →
      s.tryAcquireN now (m + 1) =
        (List.replicate m true ++ [false], { s with tokens := 0 }) := by
  induction m with
  | zero =>
    intro s now hlu ht hb
    have htb : s.tokens ≤ (s.burst : ℚ) := by rw [ht]; simpa using hb
    have hta : s.try_acquire now = (false, s) := by
      simp [RateLimiter.try_acquire, RateLimiter.refill_eq_self s now hlu htb, ht]
    simp only [RateLimiter.tryAcquireN, hta]
    cases s with
    | mk rpm burst tokens last_update =>
      simp only [RateLimiter.tryAcquireN]
      simp_all
  | succ m ih =>
    intro s now hlu ht hb
    have hb0 : (m : ℚ) ≤ (s.burst : ℚ) := by push_cast at hb ⊢; linarith
    have htb : s.tokens ≤ (s.burst : ℚ) := by rw [ht]; exact_mod_cast hb
    have h1 : (1 : ℚ) ≤ s.tokens := by
      rw [ht]; push_cast
      have : (0 : ℚ) ≤ (m : ℚ) := Nat.cast_nonneg m
      linarith
    have hta : s.try_acquire now = (true, { s with tokens := s.tokens - 1 }) := by
      simp [RateLimiter.try_acquire, RateLimiter.refill_eq_self s now hlu htb, h1]
    have ht' : ({ s with tokens := s.tokens - 1 } : RateLimiter).tokens = (m : ℚ) := by
      simp only; rw [ht]; push_cast; ring
    have hrec := ih { s with tokens := s.tokens - 1 } now (by simp [hlu]) ht' hb0
    have goalEq : s.tryAcquireN now (m + 1 + 1) =
        ((s.try_acquire now).1 :: ((s.try_acquire now).2.tryAcquireN now (m + 1)).1,
          ((s.try_acquire now).2.tryAcquireN now (m + 1)).2) := rfl
    rw [goalEq, hta]
    simp only [hrec]
    simp [List.replicate_succ]

/-- C5: a freshly constructed RateLimiter(rpm, burst) has tokens equal to
burst; with no elapsed time, burst consecutive tryAcquire calls all
return true, the next one returns false, and tokens ends at exactly 0,
never dropping below zero. -/
theorem C5_fresh_limiter_burst (rpm : Int) (burst : Nat) (t0 : ℚ) :
    (RateLimiter.init rpm burst t0).tokens = (burst : ℚ) ∧
    (RateLimiter.init rpm burst t0).tryAcquireN t0 (burst + 1) =
      (List.replicate burst true ++ [false],
        { rpm := rpm, burst := (burst : Int), tokens := 0, last_update := t0 }) ∧
    (0 : ℚ) ≤ ((RateLimiter.init rpm burst t0).tryAcquireN t0 (burst + 1)).2.tokens := by
  have h0 : (RateLimiter.init rpm burst t0).tokens = (burst : ℚ) := by
    simp [RateLimiter.init]
  have hmain := RateLimiter.tryAcquireN_exhaust burst (RateLimiter.init rpm burst t0)
    t0 rfl h0 (by simp [RateLimiter.init])
  refine ⟨h0, ?_, ?_⟩
  · rw [hmain]; rfl
  · rw [hmain]

/-- C6: updateFromResponseHeaders with remaining 5 and limit 20 leaves
tokens equal to 5 and capacity equal to 20 regardless of prior state;
the remaining header alone sets tokens, the limit header alone sets
capacity, and nothing else changes. -/
theorem C6_update_from_headers_authoritative (s : RateLimiter) :
    (∃ s1, s.update_from_headers
        [("x-ratelimit-remaining", "5"), ("x-ratelimit-limit", "20")] = some s1 ∧
      s1.tokens = 5 ∧ s1.burst = 20 ∧ s1.rpm = s.rpm ∧
      s1.last_update = s.last_update) ∧
    (∃ s2, s.update_from_headers [("x-ratelimit-remaining", "5")] = some s2 ∧
      s2.tokens = 5 ∧ s2.burst = s.burst ∧ s2.rpm = s.rpm ∧
      s2.last_update = s.last_update) ∧
    (∃ s3, s.update_from_headers [("x-ratelimit-limit", "20")] = some s3 ∧
      s3.burst = 20 ∧ s3.tokens = s.tokens ∧ s3.rpm = s.rpm ∧
      s3.last_update = s.last_update) := by
  refine ⟨⟨{ s with tokens := ((5 : Int) : ℚ), burst := (20 : Int) },
      rfl, by norm_num, rfl, rfl, rfl⟩,
    ⟨{ s with tokens := ((5 : Int) : ℚ) }, rfl, by norm_num, rfl, rfl, rfl⟩,
    ⟨{ s with burst := (20 : Int) }, rfl, rfl, rfl, rfl, rfl⟩⟩

/-- Char.ofNat is a section of Char.toNat on the lowercase-letter range. -/
theorem charOfNat_toNat_lower (m : Nat) (h1 : 97 ≤ m) (h2 : m ≤ 122) :
    (Char.ofNat m).toNat = m := by
  interval_cases m <;> decide

/-- The Python-lowering character map is idempotent. -/
theorem pyLowerChar_idem (c : Char) : pyLowerChar (pyLowerChar c) = pyLowerChar c := by
  unfold pyLowerChar
  by_cases h : 65 ≤ c.toNat ∧ c.toNat ≤ 90
  · rw [if_pos h, charOfNat_toNat_lower (c.toNat + 32) (by omega) (by omega),
      if_neg (by omega)]
  · rw [if_neg h, if_neg h]

/-- Python-lowering a string is idempotent. -/
theorem pyLower_idem (s : String) : pyLower (pyLower s) = pyLower s := by
  have hcomp : pyLowerChar ∘ pyLowerChar = pyLowerChar := funext pyLowerChar_idem
  simp [pyLower, List.map_map, hcomp]

/-- Lowering the keys of an already key-lowered header list is a no-op. -/
theorem lower_pairs_idem (hs : List (String × String)) :
    (hs.map (fun p => (pyLower p.1, p.2))).map (fun p => (pyLower p.1, p.2)) =
      hs.map (fun p => (pyLower p.1, p.2)) := by
  rw [List.map_map]
  have hcomp : ((fun p : String × String => (pyLower p.1, p.2)) ∘
      (fun p : String × String => (pyLower p.1, p.2))) =
      fun p : String × String => (pyLower p.1, p.2) := by
    funext p
    simp [Function.comp, pyLower_idem]
  rw [hcomp]

/-- The remaining block only ever writes the tokens field. -/
theorem RateLimiter.applyRemaining_frame (s s1 : RateLimiter)
    (hl : List (String × String)) (h : s.applyRemaining hl = some s1) :
    s1.rpm = s.rpm ∧ s1.burst = s.burst ∧ s1.last_update = s.last_update := by
  unfold RateLimiter.applyRemaining at h
  split at h
  · rcases Option.map_eq_some'.mp h with ⟨r, _, hs1⟩
    subst hs1
    exact ⟨rfl, rfl, rfl⟩
  · cases h
    exact ⟨rfl, rfl, rfl⟩

/-- The limit block only ever writes the burst field. -/
theorem RateLimiter.applyLimit_frame (s s1 : RateLimiter)
    (hl : List (String × String)) (h : s.applyLimit hl = some s1) :
    s1.rpm = s.rpm ∧ s1.tokens = s.tokens ∧ s1.last_update = s.last_update := by
  unfold RateLimiter.applyLimit at h
  split at h
  · rcases Option.map_eq_some'.mp h with ⟨l, _, hs1⟩
    subst hs1
    exact ⟨rfl, rfl, rfl⟩
  · cases h
    exact ⟨rfl, rfl, rfl⟩

/-- Without the remaining key the remaining block is the identity. -/
theorem RateLimiter.applyRemaining_none (s : RateLimiter)
    (hl : List (String × String))
    (h : dictGet hl "x-ratelimit-remaining" = none) :
    s.applyRemaining hl = some s := by
  unfold RateLimiter.applyRemaining
  rw [h]

/-- Without the limit key the limit block is the identity. -/
theorem RateLimiter.applyLimit_none (s : RateLimiter)
    (hl : List (String × String))
    (h : dictGet hl "x-ratelimit-limit" = none) :
    s.applyLimit hl = some s := by
  unfold RateLimiter.applyLimit
  rw [h]

/-- C10: update_from_headers matches its two header keys after lowering
the incoming keys, so matching is case-insensitive; a successful update
never changes rpm or last_update; tokens changes only when the remaining
key is present and burst only when the limit key is present; with
neither key the state is returned unchanged. -/
theorem C10_update_headers_case_insensitive_frame :
    (∀ s : RateLimiter, ∀ hs : List (String × String),
      s.update_from_headers hs =
        s.update_from_headers (hs.map (fun p => (pyLower p.1, p.2)))) ∧
    (∀ s s1 : RateLimiter, ∀ hs : List (String × String),
      s.update_from_headers hs = some s1 →
      s1.rpm = s.rpm ∧ s1.last_update = s.last_update) ∧
    (∀ s s1 : RateLimiter, ∀ hs : List (String × String),
      s.update_from_headers hs = some s1 →
      dictGet (hs.map (fun p => (pyLower p.1, p.2))) "x-ratelimit-remaining" = none →
      s1.tokens = s.tokens) ∧
    (∀ s s1 : RateLimiter, ∀ hs : List (String × String),
      s.update_from_headers hs = some s1 →
      dictGet (hs.map (fun p => (pyLower p.1, p.2))) "x-ratelimit-limit" = none →
      s1.burst = s.burst) ∧
    (∀ s : RateLimiter, ∀ hs : List (String × String),
      dictGet (hs.map (fun p => (pyLower p.1, p.2))) "x-ratelimit-remaining" = none →
      dictGet (hs.map (fun p => (pyLower p.1, p.2))) "x-ratelimit-limit" = none →
      s.update_from_headers hs = some s) := by
  refine ⟨?_, ?_, ?_, ?_, ?_⟩
  · intro s hs
    unfold RateLimiter.update_from_headers
    rw [lower_pairs_idem]
  · intro s s1 hs h
    unfold RateLimiter.update_from_headers at h
    rcases Option.bind_eq_some.mp h with ⟨sm, hrem, hlim⟩
    have h1 := RateLimiter.applyRemaining_frame s sm _ hrem
    have h2 := RateLimiter.applyLimit_frame sm s1 _ hlim
    exact ⟨h2.1.trans h1.1, h2.2.2.trans h1.2.2⟩
  · intro s s1 hs h hnone
    unfold RateLimiter.update_from_headers at h
    rcases Option.bind_eq_some.mp h with ⟨sm, hrem, hlim⟩
    rw [RateLimiter.applyRemaining_none s _ hnone] at hrem
    cases hrem
    exact (RateLimiter.applyLimit_frame s s1 _ hlim).2.1
  · intro s s1 hs h hnone
    unfold RateLimiter.update_from_headers at h
    rcases Option.bind_eq_some.mp h with ⟨sm, hrem, hlim⟩
    rw [RateLimiter.applyLimit_none sm _ hnone] at hlim
    cases hlim
    exact (RateLimiter.applyRemaining_frame s s1 _ hrem).2.1
  · intro s hs hr hl
    unfold RateLimiter.update_from_headers
    rw [RateLimiter.applyRemaining_none s _ hr, Option.some_bind,
      RateLimiter.applyLimit_none s _ hl]

/-- Witness for C10 at concrete inputs: an uppercase-keyed header list is
treated like its lowercase form, a successful concrete update keeps rpm
and last_update, and an unrelated header changes nothing. -/
theorem C10_witness :
    (RateLimiter.init 60 10 0).update_from_headers
        [("X-RateLimit-Remaining", "5")] =
      (RateLimiter.init 60 10 0).update_from_headers
        [("x-ratelimit-remaining", "5")] ∧
    ({ rpm := 60, burst := 10, tokens := ((5 : Int) : ℚ), last_update := 0 }
        : RateLimiter).rpm = (RateLimiter.init 60 10 0).rpm ∧
    ({ rpm := 60, burst := 10, tokens := ((5 : Int) : ℚ), last_update := 0 }
        : RateLimiter).last_update = (RateLimiter.init 60 10 0).last_update ∧
    (RateLimiter.init 60 10 0).update_from_headers [("accept", "json")] =
      some (RateLimiter.init 60 10 0) := by
  have hframe := C10_update_headers_case_insensitive_frame.2.1
    (RateLimiter.init 60 10 0)
    { rpm := 60, burst := 10, tokens := ((5 : Int) : ℚ), last_update := 0 }
    [("x-ratelimit-remaining", "5")] rfl
  exact ⟨C10_update_headers_case_insensitive_frame.1 (RateLimiter.init 60 10 0)
      [("X-RateLimit-Remaining", "5")],
    hframe.1, hframe.2,
    C10_update_headers_case_insensitive_frame.2.2.2.2 (RateLimiter.init 60 10 0)
      [("accept", "json")] rfl rfl⟩

/-- A refill with monotone time and nonnegative rpm preserves the
token-bucket invariant. -/
theorem RateLimiter.refill_inv (s : RateLimiter) (now : ℚ) (hrpm : 0 ≤ s.rpm)
    (hlu : s.last_update ≤ now) (hinv : s.inv) : (s.refill now).inv := by
  obtain ⟨h0, hb⟩ := hinv
  unfold RateLimiter.refill RateLimiter.inv
  simp only
  have hrq : (0 : ℚ) ≤ (s.rpm : ℚ) := by exact_mod_cast hrpm
  have hadd : 0 ≤ (now - s.last_update) * ((s.rpm : ℚ) / 60) :=
    mul_nonneg (by linarith) (by positivity)
  exact ⟨le_min (by linarith) (by linarith), min_le_left _ _⟩

/-- try_acquire preserves the token-bucket invariant. -/
theorem RateLimiter.try_acquire_inv (s : RateLimiter) (now : ℚ) (hrpm : 0 ≤ s.rpm)
    (hlu : s.last_update ≤ now) (hinv : s.inv) : (s.try_acquire now).2.inv := by
  have hr := s.refill_inv now hrpm hlu hinv
  obtain ⟨h0, hb⟩ := hr
  simp only [RateLimiter.try_acquire]
  split
  · rename_i hge
    constructor
    · show (0 : ℚ) ≤ (s.refill now).tokens - 1
      linarith
    · show (s.refill now).tokens - 1 ≤ ((s.refill now).burst : ℚ)
      linarith
  · exact ⟨h0, hb⟩

/-- The acquire loop preserves the token-bucket invariant along any
monotone sequence of wakeup readings. -/
theorem RateLimiter.acquireLoop_inv (ts : List ℚ) :
    ∀ s : RateLimiter, 0 ≤ s.rpm → s.inv →
      List.Chain (· ≤ ·) s.last_update ts →
      ∀ s', s.acquireLoop ts = some s' → s'.inv := by
  induction ts with
  | nil =>
    intro s _ hinv _ s' h
    unfold RateLimiter.acquireLoop at h
    split at h
    · rename_i hge
      cases h
      exact ⟨by obtain ⟨_, _⟩ := hinv; simp only; linarith,
        by obtain ⟨_, hb⟩ := hinv; simp only; linarith⟩
    · cases h
  | cons t ts ih =>
    intro s hrpm hinv hchain s' h
    unfold RateLimiter.acquireLoop at h
    rcases List.chain_cons.mp hchain with ⟨hle, hchain2⟩
    split at h
    · rename_i hge
      cases h
      exact ⟨by obtain ⟨_, _⟩ := hinv; simp only; linarith,
        by obtain ⟨_, hb⟩ := hinv; simp only; linarith⟩
    · refine ih (s.refill t) (by simpa [RateLimiter.refill] using hrpm)
        (s.refill_inv t hrpm hle hinv) ?_ s' h
      simpa [RateLimiter.refill] using hchain2

/-- When update_from_headers receives a parseable remaining value, it
writes exactly that value into tokens, with no clamping to capacity. -/
theorem RateLimiter.update_sets_tokens_unclamped (s : RateLimiter)
    (hs : List (String × String)) (v : String) (r : Int)
    (hrem : dictGet (hs.map (fun p => (pyLower p.1, p.2)))
      "x-ratelimit-remaining" = some v)
    (hr : pyInt v = some r)
    (hlim : dictGet (hs.map (fun p => (pyLower p.1, p.2)))
        "x-ratelimit-limit" = none ∨
      ∃ w l, dictGet (hs.map (fun p => (pyLower p.1, p.2)))
          "x-ratelimit-limit" = some w ∧ pyInt w = some l) :
    ∃ s', s.update_from_headers hs = some s' ∧ s'.tokens = (r : ℚ) := by
  have hstep1 : s.applyRemaining (hs.map (fun p => (pyLower p.1, p.2))) =
      some { s with tokens := (r : ℚ) } := by
    unfold RateLimiter.applyRemaining
    rw [hrem]
    simp [hr]
  rcases hlim with hnone | ⟨w, l, hw, hl⟩
  · refine ⟨{ s with tokens := (r : ℚ) }, ?_, rfl⟩
    unfold RateLimiter.update_from_headers
    rw [hstep1, Option.some_bind,
      RateLimiter.applyLimit_none _ _ hnone]
  · refine ⟨{ s with tokens := (r : ℚ), burst := l }, ?_, rfl⟩
    unfold RateLimiter.update_from_headers
    rw [hstep1, Option.some_bind]
    unfold RateLimiter.applyLimit
    rw [hw]
    simp [hl]

/-- C1 (amended): with a monotone clock and nonnegative rpm, the
invariant 0 ≤ tokens ≤ capacity is preserved by refill, tryAcquire,
acquire and getState; but updateFromResponseHeaders writes the remaining
header value into tokens with no clamping, so a header value above the
capacity or below zero violates the invariant. -/
theorem C1_invariant_amended :
    (∀ s : RateLimiter, ∀ now : ℚ, 0 ≤ s.rpm → s.last_update ≤ now → s.inv →
      (s.refill now).inv) ∧
    (∀ s : RateLimiter, ∀ now : ℚ, 0 ≤ s.rpm → s.last_update ≤ now → s.inv →
      (s.try_acquire now).2.inv) ∧
    (∀ s : RateLimiter, ∀ now : ℚ, ∀ ts : List ℚ, ∀ s' : RateLimiter,
      0 ≤ s.rpm → List.Chain (· ≤ ·) s.last_update (now :: ts) → s.inv →
      s.acquire now ts = some s' → s'.inv) ∧
    (∀ s : RateLimiter, ∀ now : ℚ, 0 ≤ s.rpm → s.last_update ≤ now → s.inv →
      (s.get_state now).2.inv) ∧
    (∀ s : RateLimiter, ∀ hs : List (String × String), ∀ v : String, ∀ r : Int,
      dictGet (hs.map (fun p => (pyLower p.1, p.2)))
        "x-ratelimit-remaining" = some v →
      pyInt v = some r →
      (dictGet (hs.map (fun p => (pyLower p.1, p.2)))
          "x-ratelimit-limit" = none ∨
        ∃ w l, dictGet (hs.map (fun p => (pyLower p.1, p.2)))
            "x-ratelimit-limit" = some w ∧ pyInt w = some l) →
      ∃ s', s.update_from_headers hs = some s' ∧ s'.tokens = (r : ℚ)) := by
  refine ⟨RateLimiter.refill_inv, RateLimiter.try_acquire_inv, ?_, ?_, ?_⟩
  · intro s now ts s' hrpm hchain hinv h
    rcases List.chain_cons.mp hchain with ⟨hle, hchain2⟩
    exact RateLimiter.acquireLoop_inv ts (s.refill now)
      (by simpa [RateLimiter.refill] using hrpm)
      (s.refill_inv now hrpm hle hinv)
      (by simpa [RateLimiter.refill] using hchain2) s' h
  · intro s now hrpm hlu hinv
    exact s.refill_inv now hrpm hlu hinv
  · exact RateLimiter.update_sets_tokens_unclamped

/-- Counterexample to C1 as stated: a response header carrying a
remaining value of 50 drives a limiter of capacity 10 to tokens = 50,
breaking tokens ≤ capacity. -/
theorem C1_counterexample :
    ((RateLimiter.init 60 10 0).update_from_headers
        [("x-ratelimit-remaining", "50")]).map (fun s' => decide s'.inv) =
      some false := by
  decide

/-- Witness for C1 at concrete inputs: each preserved operation applied
to a concrete limiter satisfying the invariant, plus a concrete
unclamped header write. -/
theorem C1_invariant_amended_witness :
    ((RateLimiter.init 60 10 0).refill 1).inv ∧
    ((RateLimiter.init 60 10 0).try_acquire 1).2.inv ∧
    (∀ s', (RateLimiter.init 60 10 0).acquire 1 [2] = some s' → s'.inv) ∧
    ((RateLimiter.init 60 10 0).get_state 1).2.inv ∧
    (∃ s', (RateLimiter.init 60 10 0).update_from_headers
        [("x-ratelimit-remaining", "5")] = some s' ∧
      s'.tokens = ((5 : Int) : ℚ)) := by
  refine ⟨?_, ?_, ?_, ?_, ?_⟩
  · exact C1_invariant_amended.1 (RateLimiter.init 60 10 0) 1 (by decide)
      (by norm_num [RateLimiter.init]) (by constructor <;> norm_num [RateLimiter.init])
  · exact C1_invariant_amended.2.1 (RateLimiter.init 60 10 0) 1 (by decide)
      (by norm_num [RateLimiter.init]) (by constructor <;> norm_num [RateLimiter.init])
  · intro s' h
    exact C1_invariant_amended.2.2.1 (RateLimiter.init 60 10 0) 1 [2] s' (by decide)
      (by norm_num [RateLimiter.init, List.chain_cons]) 
      (by constructor <;> norm_num [RateLimiter.init]) h
  · exact C1_invariant_amended.2.2.2.1 (RateLimiter.init 60 10 0) 1 (by decide)
      (by norm_num [RateLimiter.init]) (by constructor <;> norm_num [RateLimiter.init])
  · exact C1_invariant_amended.2.2.2.2 (RateLimiter.init 60 10 0)
      [("x-ratelimit-remaining", "5")] "5" 5 rfl rfl (Or.inl rfl)

/-- The message the code extracts from a JSON-object error body is
exactly the message the specification describes: the first populated
(truthy) key among detail, message, error, else a rendering of the whole
body. -/
theorem extract_message_obj (kvs : List (String × Json)) :
    extract_message (.obj kvs) = some (claimMessage kvs) := by
  unfold extract_message claimMessage pyOrElse
  rcases hd : jsonGet kvs "detail" with _ | vd <;>
    rcases hm : jsonGet kvs "message" with _ | vm <;>
      rcases he : jsonGet kvs "error" with _ | ve <;>
        simp_all [List.findSome?_cons, List.findSome?_nil, Option.filter] <;>
        split_ifs <;> simp_all

/-- C4 (amended): a 204 response yields the empty result and no error;
any other 2xx yields its decoded JSON body, falling back to the raw text
when decoding fails and the text is nonempty, and to the empty result
when the undecodable text is empty; a 400 response with a JSON-object
body raises Validation whose message is the first populated key among
detail, message, error, else a rendering of the whole body; a 500
response with an undecodable nonempty body raises Server with the raw
text as the message. -/
theorem C4_response_classification :
    (∀ r : Response, r.status = 204 → request_result r = .ok .empty) ∧
    (∀ r : Response, ∀ j : Json, 200 ≤ r.status → r.status ≤ 299 →
      r.status ≠ 204 → r.jsonBody = some j → request_result r = .ok (.json j)) ∧
    (∀ r : Response, 200 ≤ r.status → r.status ≤ 299 → r.status ≠ 204 →
      r.jsonBody = none → r.text ≠ "" → request_result r = .ok (.text r.text)) ∧
    (∀ r : Response, 200 ≤ r.status → r.status ≤ 299 → r.status ≠ 204 →
      r.jsonBody = none → r.text = "" → request_result r = .ok .empty) ∧
    (∀ r : Response, ∀ kvs : List (String × Json), r.status = 400 →
      r.jsonBody = some (.obj kvs) →
      handle_response r = some (.wb (.validation (claimMessage kvs) 400 (.obj kvs)))) ∧
    (∀ r : Response, r.status = 500 → r.jsonBody = none → r.text ≠ "" →
      handle_response r =
        some (.wb (.server (.str r.text) 500 (.obj [("detail", .str r.text)])))) := by
  refine ⟨?_, ?_, ?_, ?_, ?_, ?_⟩
  · intro r h204
    have hsucc : r.is_success = true := by
      simp [Response.is_success, h204]
    simp [request_result, handle_response, hsucc, h204]
  · intro r j hlo hhi h204 hjson
    have hsucc : r.is_success = true := by
      simp [Response.is_success, hlo, hhi]
    simp [request_result, handle_response, hsucc, h204, hjson]
  · intro r hlo hhi h204 hjson htext
    have hsucc : r.is_success = true := by
      simp [Response.is_success, hlo, hhi]
    simp [request_result, handle_response, hsucc, h204, hjson, htext]
  · intro r hlo hhi h204 hjson htext
    have hsucc : r.is_success = true := by
      simp [Response.is_success, hlo, hhi]
    simp [request_result, handle_response, hsucc, h204, hjson, htext]
  · intro r kvs h400 hbody
    have hns : r.is_success = false := by
      simp [Response.is_success, h400]
    simp [handle_response, hns, hbody, h400, extract_message_obj]
  · intro r h500 hbody htext
    have hns : r.is_success = false := by
      simp [Response.is_success, h500]
    have hmsg : extract_message (.obj [("detail", .str r.text)]) =
        some (.str r.text) := by
      simp [extract_message, jsonGet, pyOrElse, pyTruthy, htext]
    simp [handle_response, hns, hbody, h500, hmsg]

/-- Counterexample to C4 as stated: a 200 response whose body fails JSON
decoding and whose raw text is empty yields the empty result, not the
raw text. -/
theorem C4_counterexample :
    request_result { status := 200, jsonBody := none, text := "", headers := [] } =
      .ok .empty ∧
    (Except.ok ReqData.empty : Except PyExn ReqData) ≠ .ok (.text "") := by
  refine ⟨rfl, ?_⟩
  intro h
  cases h

/-- Witness for C4 at concrete responses, one per classification case. -/
theorem C4_response_classification_witness :
    request_result (Response.mk 204 none "" []) = .ok .empty ∧
    request_result (Response.mk 200 (some (.str "x")) "x" []) =
      .ok (.json (.str "x")) ∧
    request_result (Response.mk 200 none "plain" []) = .ok (.text "plain") ∧
    request_result (Response.mk 200 none "" []) = .ok .empty ∧
    handle_response
        (Response.mk 400 (some (.obj [("detail", .str "bad field")])) "" []) =
      some (.wb (.validation (.str "bad field") 400
        (.obj [("detail", .str "bad field")]))) ∧
    handle_response (Response.mk 500 none "boom" []) =
      some (.wb (.server (.str "boom") 500 (.obj [("detail", .str "boom")]))) := by
  have h400 := C4_response_classification.2.2.2.2.1
    (Response.mk 400 (some (.obj [("detail", .str "bad field")])) "" [])
    [("detail", .str "bad field")] rfl rfl
  rw [show claimMessage [("detail", Json.str "bad field")] = .str "bad field"
    from rfl] at h400
  exact ⟨C4_response_classification.1 _ rfl,
    C4_response_classification.2.1 _ (.str "x") (by decide) (by decide)
      (by decide) rfl,
    C4_response_classification.2.2.1 _ (by decide) (by decide) (by decide) rfl
      (by decide),
    C4_response_classification.2.2.2.1 _ (by decide) (by decide) (by decide) rfl
      rfl,
    h400,
    C4_response_classification.2.2.2.2.2 _ rfl rfl (by decide)⟩

/-- C3 (amended): for a 429 response (with a JSON-object or undecodable
body), the raised RateLimited error carries retry_after equal to the
parsed float value of the x-ratelimit-retry header; when that header is
absent the fixed fallback 1 is attached; when the header is present but
malformed the float conversion raises ValueError instead of producing a
RateLimited error. -/
theorem C3_rate_limited_retry_after :
    (∀ r : Response, ∀ v : String, ∀ q : ℚ, r.status = 429 →
      ((∃ kvs, r.jsonBody = some (.obj kvs)) ∨ r.jsonBody = none) →
      httpHdrGet r.headers "x-ratelimit-retry" = some v → pyFloat v = some q →
      ∃ m ed, handle_response r = some (.wb (.rateLimit m 429 ed q))) ∧
    (∀ r : Response, r.status = 429 →
      ((∃ kvs, r.jsonBody = some (.obj kvs)) ∨ r.jsonBody = none) →
      httpHdrGet r.headers "x-ratelimit-retry" = none →
      ∃ m ed, handle_response r = some (.wb (.rateLimit m 429 ed 1))) ∧
    (∀ r : Response, ∀ v : String, r.status = 429 →
      ((∃ kvs, r.jsonBody = some (.obj kvs)) ∨ r.jsonBody = none) →
      httpHdrGet r.headers "x-ratelimit-retry" = some v → pyFloat v = none →
      handle_response r = some .valueError) := by
  refine ⟨?_, ?_, ?_⟩
  · intro r v q h429 hbody hhdr hq
    have hns : r.is_success = false := by simp [Response.is_success, h429]
    rcases hbody with ⟨kvs, hkvs⟩ | hnone
    · exact ⟨claimMessage kvs, .obj kvs, by
        simp [handle_response, hns, hkvs, h429, extract_message_obj,
          retryAfterOf, hhdr, hq]⟩
    · exact ⟨claimMessage [("detail", .str r.text)], .obj [("detail", .str r.text)], by
        simp [handle_response, hns, hnone, h429, extract_message_obj,
          retryAfterOf, hhdr, hq]⟩
  · intro r h429 hbody hhdr
    have hns : r.is_success = false := by simp [Response.is_success, h429]
    rcases hbody with ⟨kvs, hkvs⟩ | hnone
    · exact ⟨claimMessage kvs, .obj kvs, by
        simp [handle_response, hns, hkvs, h429, extract_message_obj,
          retryAfterOf, hhdr]⟩
    · exact ⟨claimMessage [("detail", .str r.text)], .obj [("detail", .str r.text)], by
        simp [handle_response, hns, hnone, h429, extract_message_obj,
          retryAfterOf, hhdr]⟩
  · intro r v h429 hbody hhdr hq
    have hns : r.is_success = false := by simp [Response.is_success, h429]
    rcases hbody with ⟨kvs, hkvs⟩ | hnone
    · simp [handle_response, hns, hkvs, h429, extract_message_obj,
        retryAfterOf, hhdr, hq]
    · simp [handle_response, hns, hnone, h429, extract_message_obj,
        retryAfterOf, hhdr, hq]

/-- Counterexample to C3 as stated: the code reads the x-ratelimit-retry
header, so a response carrying retry-after: 2.5 gets the fallback 1
rather than 2.5; and a malformed x-ratelimit-retry value makes float()
raise ValueError rather than attaching the fallback. -/
theorem C3_counterexample :
    handle_response (Response.mk 429 (some (.obj [("detail", .str "slow down")]))
        "x" [("retry-after", "2.5")]) =
      some (.wb (.rateLimit (.str "slow down") 429
        (.obj [("detail", .str "slow down")]) 1)) ∧
    (1 : ℚ) ≠ 5 / 2 ∧
    handle_response (Response.mk 429 (some (.obj [("detail", .str "slow down")]))
        "x" [("x-ratelimit-retry", "abc")]) = some .valueError := by
  exact ⟨rfl, by norm_num, rfl⟩

/-- Witness for C3 at concrete 429 responses: parseable header value 2.5
attached as 5/2, absent header attached as 1, malformed header raising
ValueError. -/
theorem C3_rate_limited_retry_after_witness :
    (∃ m ed, handle_response (Response.mk 429
        (some (.obj [("detail", .str "slow down")])) "x"
        [("x-ratelimit-retry", "2.5")]) =
      some (.wb (.rateLimit m 429 ed (5 / 2)))) ∧
    (∃ m ed, handle_response (Response.mk 429 none "oops" []) =
      some (.wb (.rateLimit m 429 ed 1))) ∧
    handle_response (Response.mk 429 (some (.obj [])) ""
        [("x-ratelimit-retry", "zzz")]) = some .valueError := by
  refine ⟨?_, ?_, ?_⟩
  · refine C3_rate_limited_retry_after.1 _ "2.5" (5 / 2) rfl
      (Or.inl ⟨[("detail", .str "slow down")], rfl⟩) rfl ?_
    rw [show pyFloat "2.5" = some ((digitsNat ['2'] : ℚ) +
      (digitsNat ['5'] : ℚ) / (10 ^ ([('5' : Char)] : List Char).length)) from rfl]
    norm_num [digitsNat, show Char.toNat '2' = 50 from rfl,
      show Char.toNat '5' = 53 from rfl]
  · exact C3_rate_limited_retry_after.2.1 _ rfl (Or.inr rfl) rfl
  · exact C3_rate_limited_retry_after.2.2 _ "zzz" rfl (Or.inl ⟨[], rfl⟩) rfl
      (by decide)

/-- In any completed wait run that exits by timeout, the error carries
the task id and an elapsed reading at least the configured timeout, and
that reading is the one taken before the check call that was never
issued: the elapsed-versus-timeout comparison precedes every check. -/
theorem waitLoop_timedOut_spec (cfg : PollerCfg) (check : Nat → TaskDetails)
    (hasP : Bool) (start : ℚ) (tick : Nat → ℚ) :
    ∀ fuel k cur tr e,
      waitLoop cfg check hasP start tick fuel k cur = some tr →
      tr.result = .timedOut e →
      e.task_id = cfg.task_id ∧ cfg.timeout ≤ e.timeout ∧
        e.timeout = tick (k + tr.checks.length) - start := by
  intro fuel
  induction fuel with
  | zero => intro k cur tr e h _; cases h
  | succ fuel ih =>
    intro k cur tr e h hres
    simp only [waitLoop] at h
    split at h
    · rename_i htime
      injection h with h
      subst h
      simp only at hres
      cases hres
      exact ⟨rfl, htime, by simp⟩
    · split at h
      · split at h
        · injection h with h
          subst h
          simp at hres
        · injection h with h
          subst h
          simp at hres
      · rcases Option.map_eq_some'.mp h with ⟨tr2, hrec, htr⟩
        subst htr
        have hres2 : tr2.result = .timedOut e := hres
        have hrest := ih (k + 1) _ tr2 e hrec hres2
        refine ⟨hrest.1, hrest.2.1, ?_⟩
        simp only [List.length_cons]
        rw [hrest.2.2]
        congr 2
        omega

/-- C2 (amended): the elapsed-versus-timeout comparison happens before
each status-check call, and a TaskTimeoutError carries the task id and
an elapsed reading at least the timeout; the first tick invokes the
check function exactly when its initial elapsed reading is below the
timeout, so with a zero timeout the poller times out before any check. -/
theorem C2_timeout_before_check (cfg : PollerCfg) (check : Nat → TaskDetails)
    (hasP : Bool) (start : ℚ) (tick : Nat → ℚ) (fuel : Nat) (tr : WaitTrace)
    (h : TaskPoller.wait cfg check hasP start tick fuel = some tr) :
    (∀ e, tr.result = .timedOut e →
      e.task_id = cfg.task_id ∧ cfg.timeout ≤ e.timeout ∧
        e.timeout = tick tr.checks.length - start) ∧
    (tick 0 - start < cfg.timeout → 1 ≤ tr.checks.length) ∧
    (cfg.timeout ≤ tick 0 - start →
      tr.result = .timedOut { task_id := cfg.task_id, timeout := tick 0 - start } ∧
        tr.checks = []) := by
  refine ⟨?_, ?_, ?_⟩
  · intro e hres
    have := waitLoop_timedOut_spec cfg check hasP start tick fuel 0 cfg.interval
      tr e h hres
    simpa using this
  · intro hlt
    unfold TaskPoller.wait at h
    cases fuel with
    | zero => cases h
    | succ fuel =>
      simp only [waitLoop] at h
      rw [if_neg (by exact not_le.mpr hlt)] at h
      split at h
      · split at h
        · injection h with h
          subst h
          simp
        · injection h with h
          subst h
          simp
      · rcases Option.map_eq_some'.mp h with ⟨tr2, _, htr⟩
        subst htr
        simp
  · intro hge
    unfold TaskPoller.wait at h
    cases fuel with
    | zero => cases h
    | succ fuel =>
      simp only [waitLoop] at h
      rw [if_pos hge] at h
      injection h with h
      subst h
      exact ⟨rfl, rfl⟩

/-- Counterexample to C2 as stated: with a configured timeout of zero
the very first tick raises TaskTimeoutError before any status check, so
the check function is never invoked. -/
theorem C2_counterexample :
    TaskPoller.wait { cfgFix with timeout := 0 } checkFix false 0 (fun _ => 0) 5 =
      some (WaitTrace.mk
        (.timedOut (TaskTimeoutErr.mk "t1" (0 - 0))) [] [] []) := by
  unfold TaskPoller.wait
  simp only [waitLoop]
  rw [if_pos (by norm_num)]
  rfl

/-- Witness for C2 at a concrete zero-timeout run. -/
theorem C2_timeout_before_check_witness :
    (WaitTrace.mk (WaitResult.timedOut (TaskTimeoutErr.mk "t1" (0 - 0)))
        [] [] []).result =
      .timedOut (TaskTimeoutErr.mk ({ cfgFix with timeout := 0 } : PollerCfg).task_id
        ((fun _ : Nat => (0 : ℚ)) 0 - 0)) ∧
    (WaitTrace.mk (WaitResult.timedOut (TaskTimeoutErr.mk "t1" (0 - 0)))
        [] [] []).checks = [] := by
  have hrun : TaskPoller.wait { cfgFix with timeout := 0 } checkFix false 0
      (fun _ => 0) 5 =
      some (WaitTrace.mk
        (.timedOut (TaskTimeoutErr.mk "t1" (0 - 0))) [] [] []) := by
    unfold TaskPoller.wait
    simp only [waitLoop]
    rw [if_pos (by norm_num)]
    rfl
  exact (C2_timeout_before_check { cfgFix with timeout := 0 } checkFix false 0
    (fun _ => 0) 5 _ hrun).2.2 (by norm_num)

/-- Mapping over List.range (n+1) splits off the head and shifts. -/
theorem map_range_succ_shift {α : Type} (g : Nat → α) (n : Nat) :
    (List.range (n + 1)).map g = g 0 :: (List.range n).map (fun i => g (i + 1)) := by
  rw [List.range_succ_eq_map, List.map_cons, List.map_map]
  rfl

/-- A wait run whose check function is non-terminal for the first M calls
(at offset k) and successfully terminal on call M+1, with every tick
within budget, exits with that final snapshot, checks exactly M+1 times
and reports progress on every tick when a callback is supplied. -/
theorem waitLoop_success_spec (cfg : PollerCfg) (check : Nat → TaskDetails)
    (hasP : Bool) (start : ℚ) (tick : Nat → ℚ) :
    ∀ M k cur fuel,
      (∀ i, i < M → (check (k + i)).is_completed = false) →
      (check (k + M)).is_completed = true →
      (check (k + M)).is_successful = true →
      (∀ i, i ≤ M → tick (k + i) - start < cfg.timeout) →
      M < fuel →
      ∃ tr, waitLoop cfg check hasP start tick fuel k cur = some tr ∧
        tr.result = .ok (check (k + M)) ∧
        tr.checks = (List.range (M + 1)).map (fun i => check (k + i)) ∧
        tr.progress = (if hasP then tr.checks else []) := by
  intro M
  induction M with
  | zero =>
    intro k cur fuel _ hc hs htick hfuel
    obtain ⟨fuel, rfl⟩ : ∃ f, fuel = f + 1 := ⟨fuel - 1, by omega⟩
    have h0 : tick k - start < cfg.timeout := by simpa using htick 0 (by omega)
    have hc0 : (check k).is_completed = true := by simpa using hc
    have hs0 : (check k).is_successful = true := by simpa using hs
    refine ⟨WaitTrace.mk (.ok (check k)) [check k]
      (if hasP then [check k] else []) [], ?_, by simp,
      by simp [List.range_succ], rfl⟩
    simp [waitLoop, hc0, hs0, not_le.mpr h0]
  | succ M ih =>
    intro k cur fuel hnc hc hs htick hfuel
    obtain ⟨fuel, rfl⟩ : ∃ f, fuel = f + 1 := ⟨fuel - 1, by omega⟩
    have h0 : tick k - start < cfg.timeout := by simpa using htick 0 (by omega)
    have hnc0 : (check k).is_completed = false := by simpa using hnc 0 (by omega)
    have hrec := ih (k + 1) (cur * cfg.backoff_factor) fuel
      (fun i hi => by
        have h := hnc (i + 1) (by omega)
        rwa [show k + (i + 1) = k + 1 + i from by omega] at h)
      (by rwa [show k + 1 + M = k + (M + 1) from by omega])
      (by rwa [show k + 1 + M = k + (M + 1) from by omega])
      (fun i hi => by
        have h := htick (i + 1) (by omega)
        rwa [show k + (i + 1) = k + 1 + i from by omega] at h)
      (by omega)
    rcases hrec with ⟨tr2, hrec2, hres2, hchecks2, hprog2⟩
    have hstep : waitLoop cfg check hasP start tick (fuel + 1) k cur =
        (waitLoop cfg check hasP start tick fuel (k + 1)
          (cur * cfg.backoff_factor)).map
          (fun tr => WaitTrace.mk tr.result (check k :: tr.checks)
            ((if hasP then [check k] else []) ++ tr.progress)
            ((if 0 < min (min cur cfg.max_interval)
                  (cfg.timeout - (tick k - start))
              then [min (min cur cfg.max_interval)
                  (cfg.timeout - (tick k - start))] else []) ++ tr.sleeps)) := by
      simp [waitLoop, hnc0, not_le.mpr h0]
    rw [hstep, hrec2]
    refine ⟨_, rfl, ?_, ?_, ?_⟩
    · simp only
      rw [hres2]
      rw [show k + 1 + M = k + (M + 1) from by omega]
    · simp only
      rw [hchecks2]
      have hR : (List.range (M + 1 + 1)).map (fun i => check (k + i)) =
          check (k + 0) ::
            (List.range (M + 1)).map (fun i => check (k + (i + 1))) :=
        map_range_succ_shift (fun i => check (k + i)) (M + 1)
      rw [hR]
      have hfun : (fun i => check (k + 1 + i)) =
          (fun i => check (k + (i + 1))) := by
        funext i
        congr 1
        omega
      rw [hfun]
      simp
    · simp only
      rw [hprog2, hchecks2]
      cases hasP <;> simp

/-- C7: when the check function is non-terminal on the first N-1 calls
and successfully terminal on the Nth, and every tick stays within the
time budget, wait returns the Nth snapshot, the check function runs
exactly N times (hence at least N), and the progress callback, when
supplied, is invoked once per tick: N-1 non-terminal ticks plus the
final terminal tick. -/
theorem C7_poller_returns_terminal (cfg : PollerCfg) (check : Nat → TaskDetails)
    (hasP : Bool) (start : ℚ) (tick : Nat → ℚ) (fuel N : Nat)
    (hN : 1 ≤ N) (hfuel : N ≤ fuel)
    (hnc : ∀ i, i < N - 1 → (check i).is_completed = false)
    (hc : (check (N - 1)).is_completed = true)
    (hs : (check (N - 1)).is_successful = true)
    (htick : ∀ i, i < N → tick i - start < cfg.timeout) :
    ∃ tr, TaskPoller.wait cfg check hasP start tick fuel = some tr ∧
      tr.result = .ok (check (N - 1)) ∧
      tr.checks = (List.range N).map check ∧
      N ≤ tr.checks.length ∧
      tr.progress = (if hasP then tr.checks else []) ∧
      (hasP = true → tr.progress.length = N) := by
  obtain ⟨M, rfl⟩ : ∃ M, N = M + 1 := ⟨N - 1, by omega⟩
  have hspec := waitLoop_success_spec cfg check hasP start tick M 0 cfg.interval
    fuel
    (fun i hi => by simpa using hnc i (by omega))
    (by simpa using hc)
    (by simpa using hs)
    (fun i hi => by simpa using htick i (by omega))
    (by omega)
  rcases hspec with ⟨tr, h1, h2, h3, h4⟩
  have hchecks : tr.checks = (List.range (M + 1)).map check := by
    rw [h3]
    simp
  refine ⟨tr, h1, by simpa using h2, hchecks, ?_, h4, ?_⟩
  · rw [hchecks]
    simp
  · intro hP
    rw [h4, hP, if_pos rfl, hchecks]
    simp

/-- Witness for C7: a concrete run that is non-terminal twice and
successful on the third call. -/
theorem C7_poller_returns_terminal_witness :
    ∃ tr, TaskPoller.wait cfgFix checkFix true 0 (fun k => (k : ℚ)) 5 = some tr ∧
      tr.result = .ok (checkFix 2) ∧
      tr.checks = (List.range 3).map checkFix ∧
      3 ≤ tr.checks.length ∧
      tr.progress = (if true then tr.checks else []) ∧
      (true = true → tr.progress.length = 3) := by
  exact C7_poller_returns_terminal cfgFix checkFix true 0 (fun k => (k : ℚ)) 5 3
    (by omega) (by omega) (by decide) (by decide) (by decide)
    (by intro i hi; interval_cases i <;> norm_num [cfgFix])

/-- The errors argument the poll loop passes to TaskFailedError, after
the errors-or-empty normalisation, is always exactly the errors list of
the snapshot. -/
theorem TaskDetails.errors_if_has (t : TaskDetails) :
    (if t.has_errors then t.errors else []) = t.errors := by
  by_cases h : t.has_errors
  · rw [if_pos h]
  · rw [if_neg h]
    unfold TaskDetails.has_errors at h
    simp only [Bool.or_eq_true, decide_eq_true_eq, Bool.not_eq_true', not_or] at h
    have hemp : t.errors.isEmpty = true := by
      rcases Bool.eq_false_or_eq_true t.errors.isEmpty with hf | ht
      · exact hf
      · exact absurd ht h.2
    exact (List.isEmpty_iff.mp hemp).symm

/-- A wait run whose check function is non-terminal for the first M calls
(at offset k) and terminal-but-unsuccessful on call M+1, with every tick
within budget, raises TaskFailedError carrying the configured task id,
the terminal status label and the normalised error records. -/
theorem waitLoop_failed_spec (cfg : PollerCfg) (check : Nat → TaskDetails)
    (hasP : Bool) (start : ℚ) (tick : Nat → ℚ) :
    ∀ M k cur fuel,
      (∀ i, i < M → (check (k + i)).is_completed = false) →
      (check (k + M)).is_completed = true →
      (check (k + M)).is_successful = false →
      (∀ i, i ≤ M → tick (k + i) - start < cfg.timeout) →
      M < fuel →
      ∃ tr, waitLoop cfg check hasP start tick fuel k cur = some tr ∧
        tr.result = .failedErr (TaskFailedErr.mk cfg.task_id
          (check (k + M)).status.value
          (if (check (k + M)).has_errors then (check (k + M)).errors else [])) := by
  intro M
  induction M with
  | zero =>
    intro k cur fuel _ hc hs htick hfuel
    obtain ⟨fuel, rfl⟩ : ∃ f, fuel = f + 1 := ⟨fuel - 1, by omega⟩
    have h0 : tick k - start < cfg.timeout := by simpa using htick 0 (by omega)
    have hc0 : (check k).is_completed = true := by simpa using hc
    have hs0 : (check k).is_successful = false := by simpa using hs
    refine ⟨WaitTrace.mk (.failedErr (TaskFailedErr.mk cfg.task_id
        (check k).status.value
        (if (check k).has_errors then (check k).errors else [])))
      [check k] (if hasP then [check k] else []) [], ?_, ?_⟩
    · simp [waitLoop, hc0, hs0, not_le.mpr h0]
    · simp
  | succ M ih =>
    intro k cur fuel hnc hc hs htick hfuel
    obtain ⟨fuel, rfl⟩ : ∃ f, fuel = f + 1 := ⟨fuel - 1, by omega⟩
    have h0 : tick k - start < cfg.timeout := by simpa using htick 0 (by omega)
    have hnc0 : (check k).is_completed = false := by simpa using hnc 0 (by omega)
    have hrec := ih (k + 1) (cur * cfg.backoff_factor) fuel
      (fun i hi => by
        have h := hnc (i + 1) (by omega)
        rwa [show k + (i + 1) = k + 1 + i from by omega] at h)
      (by rwa [show k + 1 + M = k + (M + 1) from by omega])
      (by rwa [show k + 1 + M = k + (M + 1) from by omega])
      (fun i hi => by
        have h := htick (i + 1) (by omega)
        rwa [show k + (i + 1) = k + 1 + i from by omega] at h)
      (by omega)
    rcases hrec with ⟨tr2, hrec2, hres2⟩
    have hstep : waitLoop cfg check hasP start tick (fuel + 1) k cur =
        (waitLoop cfg check hasP start tick fuel (k + 1)
          (cur * cfg.backoff_factor)).map
          (fun tr => WaitTrace.mk tr.result (check k :: tr.checks)
            ((if hasP then [check k] else []) ++ tr.progress)
            ((if 0 < min (min cur cfg.max_interval)
                  (cfg.timeout - (tick k - start))
              then [min (min cur cfg.max_interval)
                  (cfg.timeout - (tick k - start))] else []) ++ tr.sleeps)) := by
      simp [waitLoop, hnc0, not_le.mpr h0]
    rw [hstep, hrec2]
    refine ⟨_, rfl, ?_⟩
    simp only
    rw [hres2]
    rw [show k + 1 + M = k + (M + 1) from by omega]

/-- C8: when the check function first reaches a terminal-failure status
(error, failed or cancelled) on some call within the time budget, wait
raises TaskFailedError carrying the configured task id, the terminal
status label and the attached error records unchanged. -/
theorem C8_poller_failure (cfg : PollerCfg) (check : Nat → TaskDetails)
    (hasP : Bool) (start : ℚ) (tick : Nat → ℚ) (fuel M : Nat)
    (hnc : ∀ i, i < M → (check i).is_completed = false)
    (hc : (check M).is_completed = true)
    (hs : (check M).is_successful = false)
    (htick : ∀ i, i ≤ M → tick i - start < cfg.timeout)
    (hfuel : M < fuel) :
    ∃ tr, TaskPoller.wait cfg check hasP start tick fuel = some tr ∧
      tr.result = .failedErr (TaskFailedErr.mk cfg.task_id
        (check M).status.value (check M).errors) := by
  have hspec := waitLoop_failed_spec cfg check hasP start tick M 0 cfg.interval
    fuel
    (fun i hi => by simpa using hnc i hi)
    (by simpa using hc)
    (by simpa using hs)
    (fun i hi => by simpa using htick i hi)
    hfuel
  rcases hspec with ⟨tr, h1, h2⟩
  refine ⟨tr, h1, ?_⟩
  rw [h2]
  simp [TaskDetails.errors_if_has]

/-- Witness for C8: a concrete run that is non-terminal twice, then
fails with one attached error record. -/
theorem C8_poller_failure_witness :
    ∃ tr, TaskPoller.wait cfgFix checkFailFix false 0 (fun k => (k : ℚ)) 5 =
        some tr ∧
      tr.result = .failedErr (TaskFailedErr.mk cfgFix.task_id
        (checkFailFix 2).status.value (checkFailFix 2).errors) := by
  exact C8_poller_failure cfgFix checkFailFix false 0 (fun k => (k : ℚ)) 5 2
    (by decide) (by decide) (by decide)
    (by intro i hi; interval_cases i <;> norm_num [cfgFix]) (by omega)

/-- With positive interval, backoff factor and maximum interval, the
j-th performed sleep of a completed wait run started at interval cur
equals min(min(cur * backoff^j, max_interval), remaining budget at that
tick). -/
theorem waitLoop_sleeps_spec (cfg : PollerCfg) (check : Nat → TaskDetails)
    (hasP : Bool) (start : ℚ) (tick : Nat → ℚ)
    (hbf : 0 < cfg.backoff_factor) (hmax : 0 < cfg.max_interval) :
    ∀ fuel k cur tr, 0 < cur →
      waitLoop cfg check hasP start tick fuel k cur = some tr →
      ∀ j v, tr.sleeps.get? j = some v →
        v = min (min (cur * cfg.backoff_factor ^ j) cfg.max_interval)
          (cfg.timeout - (tick (k + j) - start)) := by
  intro fuel
  induction fuel with
  | zero => intro k cur tr _ h; cases h
  | succ fuel ih =>
    intro k cur tr hcur h j v hj
    simp only [waitLoop] at h
    split at h
    · injection h with h
      subst h
      cases hj
    · rename_i htime
      split at h
      · split at h
        · injection h with h
          subst h
          cases hj
        · injection h with h
          subst h
          cases hj
      · rcases Option.map_eq_some'.mp h with ⟨tr2, hrec, htr⟩
        subst htr
        have hrem : 0 < cfg.timeout - (tick k - start) := by
          have := not_le.mp htime
          linarith
        have hsl : 0 < min (min cur cfg.max_interval)
            (cfg.timeout - (tick k - start)) :=
          lt_min (lt_min hcur hmax) hrem
        simp only [if_pos hsl, List.singleton_append] at hj
        cases j with
        | zero =>
          injection hj with hj
          subst hj
          simp
        | succ j =>
          have := ih (k + 1) (cur * cfg.backoff_factor) tr2
            (mul_pos hcur hbf) hrec j v (by simpa using hj)
          rw [this]
          have hpow : cur * cfg.backoff_factor * cfg.backoff_factor ^ j =
              cur * cfg.backoff_factor ^ (j + 1) := by
            rw [pow_succ]
            ring
          rw [hpow, show k + 1 + j = k + (j + 1) from by omega]

/-- C9: with positive interval, backoff and maximum-interval settings,
the sleep performed after the k-th non-terminal tick equals
min(initial interval * backoff^k, max interval, remaining time budget):
each sleep is capped by the remaining budget, and the nominal interval
grows by the backoff factor after every non-terminal tick. -/
theorem C9_backoff_sleep_formula (cfg : PollerCfg) (check : Nat → TaskDetails)
    (hasP : Bool) (start : ℚ) (tick : Nat → ℚ) (fuel : Nat) (tr : WaitTrace)
    (j : Nat) (v : ℚ)
    (hint : 0 < cfg.interval) (hbf : 0 < cfg.backoff_factor)
    (hmax : 0 < cfg.max_interval)
    (hrun : TaskPoller.wait cfg check hasP start tick fuel = some tr)
    (hj : tr.sleeps.get? j = some v) :
    v = min (min (cfg.interval * cfg.backoff_factor ^ j) cfg.max_interval)
        (cfg.timeout - (tick j - start)) ∧
      v ≤ cfg.timeout - (tick j - start) := by
  have hv := waitLoop_sleeps_spec cfg check hasP start tick hbf hmax fuel 0
    cfg.interval tr hint hrun j v hj
  simp only [Nat.zero_add] at hv
  exact ⟨hv, hv ▸ min_le_right _ _⟩

/-- Witness for C9: the first performed sleep of a concrete run equals
the configured initial interval, which is below both caps. -/
theorem C9_backoff_sleep_formula_witness :
    (2 : ℚ) = min (min (cfgFix.interval * cfgFix.backoff_factor ^ 0)
        cfgFix.max_interval)
      (cfgFix.timeout - ((fun _ : Nat => (0 : ℚ)) 0 - 0)) ∧
    (2 : ℚ) ≤ cfgFix.timeout - ((fun _ : Nat => (0 : ℚ)) 0 - 0) := by
  have hrun : TaskPoller.wait cfgFix checkFix false 0 (fun _ => (0 : ℚ)) 5 =
      some (WaitTrace.mk (.ok snapDone) [snapProcessing, snapProcessing, snapDone]
        [] [2, 3]) := by
    unfold TaskPoller.wait
    simp only [waitLoop]
    norm_num [cfgFix, checkFix, min_def,
      (show snapProcessing.is_completed = false from by decide),
      (show snapDone.is_completed = true from by decide),
      (show snapDone.is_successful = true from by decide)]
  exact C9_backoff_sleep_formula cfgFix checkFix false 0 (fun _ => (0 : ℚ)) 5 _ 0 2
    (by norm_num [cfgFix]) (by norm_num [cfgFix]) (by norm_num [cfgFix]) hrun
    (by decide)
